import Mathlib

/-!
Shallow embedding of the postcast-rss sources and verification of the
specification's claims about them.

Conventions:
* datetimes are modelled as integer Unix timestamps (`DateTime := Int`),
  so chronological comparison is integer comparison;
* Python exceptions that a claim cares about are modelled with `Except`
  (the error string names the Python exception class);
* machine-level library calls (`str.split`, `int()`, `f"{x:02d}"`,
  `hashlib`/`uuid`, `strftime`) are embedded as executable Lean functions
  mirroring the CPython behaviour the source relies on.
-/

/-- Datetimes as integer Unix timestamps. -/
abbrev DateTime := Int

/-- Helper for the embedding of Python `str.split(sep)`: walks the
characters, cutting at every separator, keeping empty pieces. -/
def pySplitAux (sep : Char) : List Char → List Char → List String
  | [], acc => [String.mk acc.reverse]
  | c :: cs, acc =>
    if c = sep then String.mk acc.reverse :: pySplitAux sep cs []
    else pySplitAux sep cs (c :: acc)

/-- Embedding of Python `str.split(sep)` for a single-character separator:
splits at every occurrence, keeping empty pieces; `"".split("-") == [""]`. -/
def pySplit (sep : Char) (s : String) : List String :=
  pySplitAux sep s.toList []

/-- The codepoints CPython's `int(str)` strips as surrounding whitespace
(`Py_UNICODE_ISSPACE`; notably not U+001C..U+001F), generated from CPython
by testing `int(chr(cp) + "1")` over every codepoint. -/
def pySpaceCodes : List Nat :=
  [0x9, 0xa, 0xb, 0xc, 0xd, 0x20, 0x85, 0xa0, 0x1680, 0x2000, 0x2001, 0x2002,
   0x2003, 0x2004, 0x2005, 0x2006, 0x2007, 0x2008, 0x2009, 0x200a, 0x2028,
   0x2029, 0x202f, 0x205f, 0x3000]

/-- Whether `int(str)` strips the character as whitespace. -/
def isPySpace (c : Char) : Bool := pySpaceCodes.contains c.toNat

/-- Start codepoints of the Unicode decimal-digit runs accepted by
`int(str)` (category Nd; each entry heads ten consecutive codepoints of
value 0..9), generated from CPython's unicodedata. -/
def decDigitStarts : List Nat :=
  [0x30, 0x660, 0x6f0, 0x7c0, 0x966, 0x9e6, 0xa66, 0xae6, 0xb66, 0xbe6,
   0xc66, 0xce6, 0xd66, 0xde6, 0xe50, 0xed0, 0xf20, 0x1040, 0x1090, 0x17e0,
   0x1810, 0x1946, 0x19d0, 0x1a80, 0x1a90, 0x1b50, 0x1bb0, 0x1c40, 0x1c50,
   0xa620, 0xa8d0, 0xa900, 0xa9d0, 0xa9f0, 0xaa50, 0xabf0, 0xff10, 0x104a0,
   0x10d30, 0x11066, 0x110f0, 0x11136, 0x111d0, 0x112f0, 0x11450, 0x114d0,
   0x11650, 0x116c0, 0x11730, 0x118e0, 0x11950, 0x11c50, 0x11d50, 0x11da0,
   0x16a60, 0x16ac0, 0x16b50, 0x1d7ce, 0x1d7d8, 0x1d7e2, 0x1d7ec, 0x1d7f6,
   0x1e140, 0x1e2f0, 0x1e950, 0x1fbf0]

/-- The decimal value `int(str)` assigns to a character, `none` when it is
not a Unicode decimal digit (`int('٣') == 3`). -/
def pyDigitVal (c : Char) : Option Nat :=
  match decDigitStarts.find? (fun s => s ≤ c.toNat && c.toNat < s + 10) with
  | some s => some (c.toNat - s)
  | none => none

/-- Digit run of a Python integer literal, accumulating the value: Unicode
decimal digits with single underscores allowed between digits
(`int("1_2") == 12`, `int("1__2")` and `int("1_")` raise). -/
def pyDigitsAux : List Char → Nat → Option Nat
  | [], acc => some acc
  | '_' :: c :: cs, acc =>
    match pyDigitVal c with
    | some d => pyDigitsAux cs (acc * 10 + d)
    | none => none
  | ['_'], _ => none
  | c :: cs, acc =>
    match pyDigitVal c with
    | some d => pyDigitsAux cs (acc * 10 + d)
    | none => none

/-- Embedding of Python `int(str)`: strip the surrounding whitespace `int`
accepts, take an optional ASCII sign, then a nonempty run of Unicode
decimal digits; `none` where Python raises `ValueError`. -/
def pyInt (s : String) : Option Int :=
  let cs := ((s.toList.dropWhile fun c => isPySpace c).reverse.dropWhile fun c =>
    isPySpace c).reverse
  match cs with
  | '+' :: c :: rest =>
    match pyDigitVal c with
    | some d => (pyDigitsAux rest d).map Int.ofNat
    | none => none
  | '-' :: c :: rest =>
    match pyDigitVal c with
    | some d => (pyDigitsAux rest d).map (fun n => -(n : Int))
    | none => none
  | c :: rest =>
    match pyDigitVal c with
    | some d => (pyDigitsAux rest d).map Int.ofNat
    | none => none
  | [] => none

/-- Left-pad a digit string with zeros to the given width. -/
def zfill (w : Nat) (s : String) : String :=
  if s.length < w then String.mk (List.replicate (w - s.length) '0') ++ s else s

/-- Embedding of Python `f"{n:02d}"`: zero-pad to total width 2, the sign
coming before the padding (`f"{-1:02d}" == "-1"`, `f"{5:02d}" == "05"`). -/
def pyFmt02 (n : Int) : String :=
  if n < 0 then "-" ++ zfill 1 (toString n.natAbs) else zfill 2 (toString n.natAbs)

/-! ## models/user.py -/

/-- Embedding of `IlPostUserSubscription` (src/postcast_rss/models/user.py).
`end_date` carries the result of the `EndDate` validator (a raw sentinel `0`
becomes `None`); `next_payment` and `start_date` are required fields. -/
structure IlPostUserSubscription where
  id : Int
  billing_period : String
  subscription_status : String
  next_payment : DateTime
  start_date : DateTime
  end_date : Option DateTime := none
deriving Repr, DecidableEq

/-- `IlPostUserSubscription.is_expired`: the source computes
`end_date = self.end_date or self.next_payment` (a datetime is always
truthy and `None` falsy, so `or` yields `next_payment` exactly when
`end_date` is `None`), then `(end_date is not None) and (end_date < now)`;
after the `or` the marker is never `None`, so the conjunct is the
comparison. The current time is passed explicitly. -/
def IlPostUserSubscription.is_expired (s : IlPostUserSubscription) (now : DateTime) : Bool :=
  let e := s.end_date.getD s.next_payment
  decide (e < now)

/-- Embedding of `IlPostUserMetadata`: the credential record. The
`SecretStr` token is its underlying string. -/
structure IlPostUserMetadata where
  issubscriber : Bool := false
  paying_customer : Bool := false
  token : String
  subscription : Option IlPostUserSubscription := none
deriving Repr, DecidableEq

/-- Embedding of `IlPostUserProfile`. -/
structure IlPostUserProfile where
  meta : IlPostUserMetadata
deriving Repr, DecidableEq

/-- Embedding of `IlPostUser`. -/
structure IlPostUser where
  id : Int
  token : String
  subscription : Bool
  profile : IlPostUserProfile
deriving Repr, DecidableEq

/-! ## models/podcast.py: data records -/

/-- Embedding of `PodcastMetadata`; the `Color` is kept as its string. -/
structure PodcastMetadata where
  gift : Bool
  gift_all : Bool
  pushnotification : Bool
  chronological : Int
  order : Int
  robot : String
  sponsored : Bool
  cyclicality : String
  evidenza : String
  cyclicalitytype : String
  background_color : String
deriving Repr, DecidableEq

/-- Embedding of `Podcast`; `HttpUrl` fields are kept as strings. -/
structure Podcast where
  id : Int
  author : String
  description : String
  title : String
  image : String
  image_web : String
  object : String
  count : Option Int := none
  slug : String
  meta : PodcastMetadata
  access_level : String
deriving Repr, DecidableEq

/-- Embedding of `PodcastEpisode`; the `title` field already carries the
`UnescapedString` validator's output. -/
structure PodcastEpisode where
  id : Int
  author : String
  title : String
  summary : Option String := none
  content_html : String
  image : String
  image_web : String
  object : String
  milliseconds : Int
  minutes : Int
  special : Bool
  share_url : String
  slug : String
  full_slug : String
  url : String
  episode_raw_url : String
  date : DateTime
  access_level : String
  parent : Podcast
deriving Repr, DecidableEq

/-! ## models/podcast.py: derived episode fields -/

/-- The slug-only computation inside `PodcastEpisode.number`:
`slug_parts = self.slug.split("-")`; a first component `"ep"` indexes
`slug_parts[1]` (an `IndexError` when the slug has no dash) and feeds it to
`int(...)` (a `ValueError` when it is not an integer literal);
`["morning", "weekend"]` as the first two components gives the literal
`"Weekend"`; everything else gives `None`. Raised exceptions are modelled
as `Except.error` carrying the Python exception name. -/
def PodcastEpisode.numberOfSlug (slug : String) : Except String (Option (Int ⊕ String)) :=
  let slug_parts := pySplit '-' slug
  if slug_parts.headD "" = "ep" then
    match slug_parts[1]? with
    | none => .error "IndexError"
    | some p =>
      match pyInt p with
      | none => .error "ValueError"
      | some n => .ok (some (Sum.inl n))
  else if slug_parts.take 2 = ["morning", "weekend"] then .ok (some (Sum.inr "Weekend"))
  else .ok none

/-- `PodcastEpisode.number` applied to the episode's slug. -/
def PodcastEpisode.number (e : PodcastEpisode) : Except String (Option (Int ⊕ String)) :=
  PodcastEpisode.numberOfSlug e.slug

/-- Fuel-bounded floor-log2: the fuel caps the bit length of the argument,
and 4096 covers far beyond the binary64 range this development models. -/
def log2Aux : Nat → Nat → Nat
  | 0, _ => 0
  | fuel + 1, n => if 2 ≤ n then log2Aux fuel (n / 2) + 1 else 0

/-- Floor of log2 on naturals (exact for arguments below `2^4096`). -/
def log2Nat (n : Nat) : Nat := log2Aux 4096 n

/-- Round a quotient `q` with remainder `r` against divisor `b` half to
even, as CPython's integer true division rounds the trailing bits. -/
def roundHalfEven (q r b : Nat) : Nat :=
  if b < 2 * r then q + 1 else if 2 * r < b then q else q + q % 2

/-- `2 ^ 1100`, kept as a literal so that concrete kernel evaluations never
unfold a 1100-step exponentiation. -/
def twoPow1100 : Nat := 13582985290493858492773514283592667786034938469317445497485196697278130927542418487205392083207560592298578262953847383475038725543234929971155548342800628721885763499406390331782864144164680730766837160526223176512798435772129956553355286032203080380775759732320198985094884004069116123084147875437183658467465148948790552744165376

theorem twoPow1100_eq : twoPow1100 = 2 ^ 1100 := by
  norm_num [twoPow1100]

/-- The correctly rounded IEEE binary64 value of `a / b` as a dyadic pair
`(mantissa, exponent)` standing for `mantissa * 2^exponent`: the quotient
is rounded half to even on the 53-bit grid of its binade, which is what
CPython's int/int true division computes. `L` is the binade of `a / b`
offset by 1100, so the whole normal binary64 range is covered; binary64
overflow and subnormal underflow lie far outside the program's durations
and are not modelled. -/
def floatDivNE (a b : Nat) : Nat × Int :=
  if a = 0 ∨ b = 0 then (0, 0)
  else
    let L := log2Nat (a * twoPow1100 / b)
    if L ≤ 1152 then
      let s := 1152 - L
      (roundHalfEven (a * 2 ^ s / b) (a * 2 ^ s % b) b, (L : Int) - 1152)
    else
      let t := L - 1152
      (roundHalfEven (a / (b * 2 ^ t)) (a % (b * 2 ^ t)) (b * 2 ^ t), (L : Int) - 1152)

/-- Truncation toward zero of a nonnegative dyadic `mantissa * 2^exponent`,
as `int()` applied to a nonnegative float. -/
def truncDyadic : Nat × Int → Nat
  | (m, e) => if 0 ≤ e then m * 2 ^ e.toNat else m / 2 ^ (-e).toNat

/-- `int(timedelta(milliseconds=ms).total_seconds())`: the timedelta holds
the exact microsecond count `ms * 1000`; `total_seconds()` divides it by
`10^6` with CPython's correctly rounded (binary64, round half to even)
integer true division; `int()` truncates the resulting float toward zero.
Both steps are sign-symmetric, so the sign is split off. The constructor's
`OverflowError` bound (beyond ±8.6e19 microseconds) is far outside any
episode duration and is not modelled. -/
def pyTimedeltaSecondsInt (ms : Int) : Int :=
  let t := truncDyadic (floatDivNE (ms.natAbs * 1000) 1000000)
  if ms < 0 then -(t : Int) else (t : Int)

/-- `PodcastEpisode.seconds`: `int(timedelta(milliseconds=ms).total_seconds())`,
including the binary64 rounding `total_seconds()` performs. -/
def PodcastEpisode.seconds (e : PodcastEpisode) : Int :=
  pyTimedeltaSecondsInt e.milliseconds

/-- `PodcastEpisode.duration`: hours/minutes/seconds from Python `//` and
`%` (floor division and modulo, `Int.fdiv` / `Int.fmod`), each rendered
with `f"{x:02d}"` and joined with colons. -/
def PodcastEpisode.duration (e : PodcastEpisode) : String :=
  let s := e.seconds
  pyFmt02 (Int.fdiv s 3600) ++ ":" ++ pyFmt02 (Int.fdiv (Int.fmod s 3600) 60) ++ ":" ++
    pyFmt02 (Int.fmod s 60)

/-! ## models/podcast.py: guid (`uuid.uuid5` over SHA-1) -/

/-- 32-bit rotate left (operand below `2^32`). -/
def rotl32 (k n : Nat) : Nat :=
  ((n <<< k) ||| (n >>> (32 - k))) % 4294967296

/-- Big-endian 32-bit words from a byte list (length a multiple of 4). -/
def bytesToWords : List Nat → List Nat
  | a :: b :: c :: d :: rest => (((a * 256 + b) * 256 + c) * 256 + d) :: bytesToWords rest
  | _ => []

/-- SHA-1 message schedule: extend 16 words to 80 via the rotate-xor rule. -/
def sha1Schedule (ws : Array Nat) : Array Nat :=
  (List.range 64).foldl
    (fun arr i =>
      arr.push (rotl32 1
        (Nat.xor (Nat.xor (arr.getD (i + 13) 0) (arr.getD (i + 8) 0))
          (Nat.xor (arr.getD (i + 2) 0) (arr.getD i 0)))))
    ws

/-- SHA-1 round function. -/
def sha1F (t b c d : Nat) : Nat :=
  if t < 20 then Nat.lor (Nat.land b c) (Nat.land (4294967295 - b) d)
  else if t < 40 then Nat.xor (Nat.xor b c) d
  else if t < 60 then Nat.lor (Nat.lor (Nat.land b c) (Nat.land b d)) (Nat.land c d)
  else Nat.xor (Nat.xor b c) d

/-- SHA-1 round constants. -/
def sha1K (t : Nat) : Nat :=
  if t < 20 then 1518500249
  else if t < 40 then 1859775393
  else if t < 60 then 2400959708
  else 3395469782

/-- SHA-1 compression of one 64-byte block into the running state. -/
def sha1Block (h : Nat × Nat × Nat × Nat × Nat) (block : List Nat) :
    Nat × Nat × Nat × Nat × Nat :=
  let ws := sha1Schedule (Array.mk (bytesToWords block))
  let (h0, h1, h2, h3, h4) := h
  let (a, b, c, d, e) := (List.range 80).foldl
    (fun st t =>
      let (a, b, c, d, e) := st
      let tmp := (rotl32 5 a + sha1F t b c d + e + sha1K t + ws.getD t 0) % 4294967296
      (tmp, a, rotl32 30 b, c, d))
    (h0, h1, h2, h3, h4)
  ((h0 + a) % 4294967296, (h1 + b) % 4294967296, (h2 + c) % 4294967296,
    (h3 + d) % 4294967296, (h4 + e) % 4294967296)

/-- Cut a byte list into 64-byte blocks. -/
def chunks64 : List Nat → List (List Nat)
  | [] => []
  | x :: rest => (x :: rest.take 63) :: chunks64 (rest.drop 63)
termination_by l => l.length
decreasing_by simp [List.length_drop]; omega

/-- SHA-1 padding: `0x80`, zeros up to 56 mod 64, 8-byte big-endian bit length. -/
def sha1Pad (msg : List Nat) : List Nat :=
  let bitLen := msg.length * 8
  let padZeros := (64 + 56 - (msg.length + 1) % 64) % 64
  msg ++ [128] ++ List.replicate padZeros 0 ++
    (List.range 8).map (fun i => (bitLen >>> (8 * (7 - i))) % 256)

/-- Big-endian bytes of a 32-bit word. -/
def wordBytes (w : Nat) : List Nat :=
  [(w >>> 24) % 256, (w >>> 16) % 256, (w >>> 8) % 256, w % 256]

/-- SHA-1 digest (20 bytes) of a byte list: the `hashlib.sha1` underlying
`uuid.uuid5`. -/
def sha1 (msg : List Nat) : List Nat :=
  let (h0, h1, h2, h3, h4) := (chunks64 (sha1Pad msg)).foldl sha1Block
    (1732584193, 4023233417, 2562383102, 271733878, 3285377520)
  wordBytes h0 ++ wordBytes h1 ++ wordBytes h2 ++ wordBytes h3 ++ wordBytes h4

/-- Lowercase hex digit. -/
def hexDigit (n : Nat) : Char :=
  if n < 10 then Char.ofNat ('0'.toNat + n) else Char.ofNat ('a'.toNat + n - 10)

/-- Two lowercase hex digits of a byte. -/
def byteHex (b : Nat) : List Char :=
  [hexDigit (b / 16), hexDigit (b % 16)]

/-- The bytes of `uuid.NAMESPACE_URL`. -/
def namespaceURL : List Nat :=
  [0x6b, 0xa7, 0xb8, 0x11, 0x9d, 0xad, 0x11, 0xd1, 0x80, 0xb4, 0x00, 0xc0, 0x4f, 0xd4, 0x30, 0xc8]

/-- `str(uuid.uuid5(ns, name))`: SHA-1 of namespace bytes then the name's
UTF-8 bytes (ASCII here), first 16 bytes with the version nibble forced to 5
and the variant bits to 10, rendered in the canonical 8-4-4-4-12 lowercase
hex form. -/
def uuid5 (ns : List Nat) (name : String) : String :=
  let digest := (sha1 (ns ++ name.toList.map Char.toNat)).take 16
  let digest := digest.set 6 ((digest.getD 6 0) % 16 + 80)
  let digest := digest.set 8 ((digest.getD 8 0) % 64 + 128)
  let hex := (digest.map byteHex).flatten
  String.mk (hex.take 8) ++ "-" ++ String.mk ((hex.drop 8).take 4) ++ "-" ++
    String.mk ((hex.drop 12).take 4) ++ "-" ++ String.mk ((hex.drop 16).take 4) ++ "-" ++
    String.mk (hex.drop 20)

/-- `PodcastEpisode.guid`: `str(uuid.uuid5(uuid.NAMESPACE_URL, str(self.id)))`. -/
def PodcastEpisode.guid (e : PodcastEpisode) : String :=
  uuid5 namespaceURL (toString e.id)

/-! ## models/podcast.py: RSS rendering -/

/-- Month abbreviations for `%b` in the C locale. -/
def monthAbbrev : List String :=
  ["Jan", "Feb", "Mar", "Apr", "May", "Jun", "Jul", "Aug", "Sep", "Oct", "Nov", "Dec"]

/-- Weekday abbreviations for `%a` in the C locale, Sunday first. -/
def weekdayAbbrev : List String :=
  ["Sun", "Mon", "Tue", "Wed", "Thu", "Fri", "Sat"]

/-- Civil date (year, month, day) from days since the Unix epoch, by the
standard civil-from-days algorithm. -/
def civilFromDays (z0 : Int) : Int × Nat × Nat :=
  let z := z0 + 719468
  let era := Int.fdiv z 146097
  let doe := (Int.fmod z 146097).toNat
  let yoe := (doe - doe / 1460 + doe / 36524 - doe / 146096) / 365
  let doy := doe - (365 * yoe + yoe / 4 - yoe / 100)
  let mp := (5 * doy + 2) / 153
  let d := doy - (153 * mp + 2) / 5 + 1
  let m := if mp < 10 then mp + 3 else mp - 9
  let y := (yoe : Int) + era * 400 + (if m ≤ 2 then 1 else 0)
  (y, m, d)

/-- Embedding of `datetime.strftime("%a, %d %b %Y %H:%M:%S %z")` on a naive
datetime held as a Unix timestamp: C-locale weekday and month names; `%z`
renders as the empty string on a naive datetime, leaving the format's
trailing space. -/
def strftimeRss (t : DateTime) : String :=
  let days := Int.fdiv t 86400
  let sod := (Int.fmod t 86400).toNat
  let (y, m, d) := civilFromDays days
  let wd := (Int.fmod (days + 4) 7).toNat
  (weekdayAbbrev.getD wd "") ++ ", " ++ zfill 2 (toString d) ++ " " ++
    (monthAbbrev.getD (m - 1) "") ++ " " ++ zfill 4 (toString y) ++ " " ++
    zfill 2 (toString (sod / 3600)) ++ ":" ++ zfill 2 (toString ((sod % 3600) / 60)) ++ ":" ++
    zfill 2 (toString (sod % 60)) ++ " "

/-- Minimal model of `xml.etree.ElementTree.Element`: tag, attributes in
insertion order, optional text, child elements. -/
inductive Xml where
  | el (tag : String) (attrs : List (String × String)) (text : Option String) (children : List Xml)
deriving Repr

/-- Tag of an element. -/
def Xml.tag : Xml → String
  | .el t _ _ _ => t

/-- Children of an element. -/
def Xml.children : Xml → List Xml
  | .el _ _ _ cs => cs

/-- `PodcastEpisode.to_rss_item`: the `item` element with its sub-elements
in source order. `self.date` and `self.url` are always truthy (datetime and
URL objects define no falsiness), so the guarded sub-elements always appear;
`content_html or ""` equals `content_html` (an empty string maps to `""`
either way) and `duration or "00:00:00"` equals `duration` (the rendered
duration is never empty). -/
def PodcastEpisode.to_rss_item (e : PodcastEpisode) : Xml :=
  .el "item" [] none
    [ .el "title" [] (some e.title) [],
      .el "description" [] (some e.content_html) [],
      .el "itunes:summary" [] (some e.content_html) [],
      .el "pubDate" [] (some (strftimeRss e.date)) [],
      .el "guid" [("isPermaLink", "false")] (some e.guid) [],
      .el "itunes:duration" [] (some e.duration) [],
      .el "enclosure" [("url", e.episode_raw_url), ("type", "audio/mpeg"), ("length", "0")] none [],
      .el "link" [] (some e.url) [] ]

/-- `settings.FEED_LANGUAGE` (src/postcast_rss/core/config.py). -/
def FEED_LANGUAGE : String := "it"

/-- Embedding of `PodcastFeed`: a `Podcast` plus its episode list. -/
structure PodcastFeed extends Podcast where
  episodes : List PodcastEpisode := []
deriving Repr, DecidableEq

/-- The comparison `sorted(..., key=lambda e: e.date, reverse=True)` sorts
by: `a` before `b` when `b.date ≤ a.date`. -/
def dateDesc (a b : PodcastEpisode) : Prop := b.date ≤ a.date

instance : DecidableRel dateDesc := fun a b => Int.decLe b.date a.date

/-- `PodcastFeed.sorted_episodes`:
`sorted(self.episodes, key=lambda e: e.date, reverse=True)`. Python `sorted`
is stable, a stable descending-by-key order of a list is unique, and the
stable insertion sort with the descending comparison computes exactly it
(ties keep list order in both). -/
def PodcastFeed.sorted_episodes (f : PodcastFeed) : List PodcastEpisode :=
  List.insertionSort dateDesc f.episodes

/-- `PodcastFeed.add_episode`: `self.episodes.append(episode)`. -/
def PodcastFeed.add_episode (f : PodcastFeed) (e : PodcastEpisode) : PodcastFeed :=
  { f with episodes := f.episodes ++ [e] }

/-- `PodcastFeed.to_rss`: the `rss` element holding one `channel` with the
show metadata sub-elements in source order, followed by one item per
episode of `sorted_episodes`. -/
def PodcastFeed.to_rss (f : PodcastFeed) : Xml :=
  .el "rss"
    [("version", "2.0"),
      ("xmlns:itunes", "http://www.itunes.com/dtds/podcast-1.0.dtd"),
      ("xmlns:content", "http://purl.org/rss/1.0/modules/content/"),
      ("xmlns:atom", "http://www.w3.org/2005/Atom")] none
    [ .el "channel" [] none
        ([ .el "atom:link"
             [("href", f.image), ("rel", "self"), ("type", "application/rss+xml")] none [],
           .el "title" [] (some f.title) [],
           .el "link" [] (some f.image) [],
           .el "description" [] (some f.description) [],
           .el "language" [] (some FEED_LANGUAGE) [],
           .el "itunes:author" [] (some f.author) [],
           .el "itunes:subtitle" [] (some f.description) [],
           .el "itunes:summary" [] (some f.description) [],
           .el "itunes:explicit" [] (some "no") [],
           .el "itunes:image" [("href", f.image)] none [] ] ++
          f.sorted_episodes.map PodcastEpisode.to_rss_item) ]

/-- The `item` children of a feed document's single channel. -/
def rssItems (x : Xml) : List Xml :=
  match x with
  | .el _ _ _ cs => ((cs.headD (.el "" [] none [])).children).filter (fun c => c.tag == "item")

/-! ## core/bridge.py -/

/-- Which filesystem path an `os.remove` targeted: the configured
`settings.ILPOST_SUBSCRIPTION_CACHE_FILE` (under the per-app config
directory) or the bare `settings.ILPOST_SUBSCRIPTION_CACHE_FILE_NAME`
resolved against the process working directory. -/
inductive CachePath where
  | configured
  | cwdName
deriving Repr, DecidableEq

/-- In-memory and filesystem state of an `IlPostApi` instance.
`configFile` holds the contents of the configured cache path and `cwdFile`
records whether a file of the bare cache name exists in the CWD. `removed`,
`loginNetworkCalls` and `authTokenEvals` instrument the unlink calls, the
`requests.post` login calls and the evaluations of the `auth_token`
property. -/
structure ApiState where
  _subscription_cache : Option IlPostUserMetadata := none
  _podcasts : List (String × Podcast) := []
  user : Option IlPostUser := none
  configFile : Option IlPostUserMetadata := none
  cwdFile : Bool := false
  removed : List CachePath := []
  loginNetworkCalls : Nat := 0
  authTokenEvals : Nat := 0
deriving Repr, DecidableEq

/-- External world of a run: the current time and the (validated) user
record the login endpoint answers with. The claims under verification only
exercise the successful login response, so the non-2xx/malformed-body arm
of `IlPostApi.login` is not modelled. -/
structure ApiEnv where
  now : DateTime
  loginUser : IlPostUser
deriving Repr, DecidableEq

/-- The network-login arm of `IlPostApi.login`: `requests.post` to the auth
endpoint, `IlPostUser.model_validate`, store `self.user` and
`self._subscription_cache = self.user.profile.meta`, and
`write_subscription_cache` to the configured cache path. -/
def networkLogin (env : ApiEnv) (s : ApiState) : ApiState :=
  { s with
    loginNetworkCalls := s.loginNetworkCalls + 1,
    user := some env.loginUser,
    _subscription_cache := some env.loginUser.profile.meta,
    configFile := some env.loginUser.profile.meta }

/-- `IlPostApi.login`: `read_subscription_cache()` reads the configured
path (`FileNotFoundError` when absent); the loaded record is assigned to
`self._subscription_cache` before the checks. An absent subscription or an
expired one raises `PodcastException`, caught by the same `except` arm as
the read errors, which then performs the network login. On expiry the code
calls `os.remove(settings.ILPOST_SUBSCRIPTION_CACHE_FILE_NAME)` — the bare
file name, resolved against the CWD, not the configured cache path; when no
such CWD file exists the `FileNotFoundError` lands in that same `except`
arm, so either way the network login follows. `self.user` is not assigned
in the valid-cache branch. -/
def login (env : ApiEnv) (s : ApiState) : ApiState :=
  match s.configFile with
  | none => networkLogin env s
  | some m =>
    let s1 := { s with _subscription_cache := some m }
    match m.subscription with
    | none => networkLogin env s1
    | some sub =>
      if sub.is_expired env.now then
        let s2 :=
          if s1.cwdFile then
            { s1 with cwdFile := false, removed := s1.removed ++ [CachePath.cwdName] }
          else s1
        networkLogin env s2
      else s1

/-- The `IlPostApi.auth_token` property: counts the evaluation, runs
`login` when `self.user is None or self._subscription_cache is None`, and
returns the token's secret value (always present after `login`). -/
def auth_token (env : ApiEnv) (s : ApiState) : ApiState × String :=
  let s1 := { s with authTokenEvals := s.authTokenEvals + 1 }
  let s2 := if s1.user.isNone || s1._subscription_cache.isNone then login env s1 else s1
  (s2, (s2._subscription_cache.map IlPostUserMetadata.token).getD "")

/-- The `for item in data` loop of `recursive_podcast_get`: yield the items
in array order, incrementing `counter` after each yield, and return early
(`stopped = true`) as soon as `hits is not None and counter >= hits`. -/
def emitLoop (hits : Option Nat) : List α → Nat → List α × Nat × Bool
  | [], c => ([], c, false)
  | x :: xs, c =>
    let c1 := c + 1
    match hits with
    | some h =>
      if h ≤ c1 then ([x], c1, true)
      else
        let r := emitLoop hits xs c1
        (x :: r.1, r.2)
    | none =>
      let r := emitLoop hits xs c1
      (x :: r.1, r.2)

/-- Result of a fuel-indexed run of `recursive_podcast_get`: the records
yielded, the number of page requests issued, and whether the traversal
finished within the fuel. -/
structure FetchOut (α : Type) where
  items : List α
  pages : Nat
  completed : Bool
deriving Repr, DecidableEq

/-- `IlPostApi.recursive_podcast_get` over an abstract page server
`srv page_size page = (total_items, data)` standing for the HTTP GET
(assumed to answer 200 with a well-formed envelope, record decoding being
the identity on already-validated records). Each invocation — including
every recursive one — first opens a session with
`headers={"token": self.auth_token}`, evaluating the `auth_token` property;
then `page_size = hits or 200` (Python `or`: a zero limit falls back
to 200), the emit loop runs, and when
`counter < total_items and (hits is None or counter < hits)` the function
recurses onto `page + 1` with the running counter. The recursion is
fuel-indexed; exhausted fuel marks the run incomplete. -/
def recursive_podcast_get (env : ApiEnv) (srv : Nat → Nat → Nat × List α)
    (s : ApiState) (page counter : Nat) (hits : Option Nat) :
    Nat → FetchOut α × ApiState
  | 0 => (⟨[], 0, false⟩, s)
  | fuel + 1 =>
    let as := auth_token env s
    let page_size := match hits with | none => 200 | some h => if h = 0 then 200 else h
    let td := srv page_size page
    let ecs := emitLoop hits td.2 counter
    if ecs.2.2 then (⟨ecs.1, 1, true⟩, as.1)
    else if decide (ecs.2.1 < td.1) && (match hits with | none => true | some h => decide (ecs.2.1 < h)) then
      let rs := recursive_podcast_get env srv as.1 (page + 1) ecs.2.1 hits fuel
      (⟨ecs.1 ++ rs.1.items, rs.1.pages + 1, rs.1.completed⟩, rs.2)
    else (⟨ecs.1, 1, true⟩, as.1)

/-- `IlPostApi.get_podcasts`: collect the records of
`recursive_podcast_get(hits=top_n)` into a list. -/
def get_podcasts (env : ApiEnv) (srv : Nat → Nat → Nat × List Podcast)
    (s : ApiState) (top_n : Option Nat) (fuel : Nat) : List Podcast × ApiState :=
  let rs := recursive_podcast_get env srv s 1 0 top_n fuel
  (rs.1.items, rs.2)

/-- Python dict assignment `d[k] = v` on an insertion-ordered mapping:
replace in place when the key exists, append otherwise. -/
def dictSet (m : List (String × Podcast)) (k : String) (v : Podcast) :
    List (String × Podcast) :=
  if m.any (fun kv => kv.1 == k) then m.map (fun kv => if kv.1 == k then (k, v) else kv)
  else m ++ [(k, v)]

/-- The `IlPostApi.podcasts` property: when the cache dict is empty
(`not self._podcasts or len(self._podcasts) == 0`), run the full unlimited
`get_podcasts()` and index every returned show by slug into the cache;
otherwise answer from the cache unchanged. -/
def podcasts (env : ApiEnv) (srv : Nat → Nat → Nat × List Podcast)
    (s : ApiState) (fuel : Nat) : List (String × Podcast) × ApiState :=
  if s._podcasts.isEmpty then
    let ps := get_podcasts env srv s none fuel
    let s2 := { ps.2 with _podcasts := ps.1.foldl (fun m p => dictSet m p.slug p) ps.2._podcasts }
    (s2._podcasts, s2)
  else (s._podcasts, s)

/-- The claims' "catalog of N items served by the API": a consistent page
server with constant reported total (the catalog's length), answering page
`p` (1-based) of size `sz` with that slice of the catalog. -/
def srvOf (catalog : List α) : Nat → Nat → Nat × List α :=
  fun sz p => (catalog.length, (catalog.drop ((p - 1) * sz)).take sz)

/-! ## Shared concrete fixtures for witnesses and counterexamples -/

/-- A concrete subscription that never expires before time 100. -/
def sampleSubscription : IlPostUserSubscription :=
  { id := 1, billing_period := "year", subscription_status := "active",
    next_payment := 100, start_date := 0 }

/-- A concrete credential record. -/
def sampleMeta : IlPostUserMetadata :=
  { token := "tok", subscription := some sampleSubscription }

/-- A concrete validated login response. -/
def sampleUser : IlPostUser :=
  { id := 1, token := "tok", subscription := true, profile := { meta := sampleMeta } }

/-- A concrete environment: current time 10, login answering `sampleUser`. -/
def sampleEnv : ApiEnv :=
  { now := 10, loginUser := sampleUser }

/-- A concrete show used by the concrete episodes. -/
def samplePodcast : Podcast :=
  { id := 1, author := "a", description := "d", title := "t", image := "http://i",
    image_web := "http://w", object := "podcast", slug := "show",
    meta := { gift := false, gift_all := false, pushnotification := false,
              chronological := 0, order := 0, robot := "index", sponsored := false,
              cyclicality := "weekly", evidenza := "", cyclicalitytype := "",
              background_color := "#ffffff" },
    access_level := "free" }

/-- A concrete episode with the given id, date, duration and slug. -/
def mkEpisode (i : Int) (d : DateTime) (ms : Int) (slug : String) : PodcastEpisode :=
  { id := i, author := "a", title := "t", content_html := "<p>x</p>", image := "http://i",
    image_web := "http://w", object := "episode", milliseconds := ms, minutes := 0,
    special := false, share_url := "http://s", slug := slug, full_slug := "show/" ++ slug,
    url := "http://u", episode_raw_url := "http://r", date := d, access_level := "free",
    parent := samplePodcast }

/-! ## C6 -/

/-- The spec's effective end marker of a subscription: the end-date when
present, otherwise the next-payment timestamp (which the data model always
carries, `next_payment` being a required field). -/
def effectiveEndMarker (s : IlPostUserSubscription) : Option DateTime :=
  match s.end_date with
  | some d => some d
  | none => some s.next_payment

/-- C6: for every subscription record, `is_expired` is true exactly when
either no usable end marker exists (the `none` arm below — unrepresentable
here, since `next_payment` is required, hence vacuously "expired") or the
effective end marker is strictly before the current time. -/
theorem is_expired_iff_effective_end_before_now
    (s : IlPostUserSubscription) (now : DateTime) :
    s.is_expired now = true ↔
      (match effectiveEndMarker s with
       | none => True
       | some d => d < now) := by
  cases h : s.end_date <;>
    simp [IlPostUserSubscription.is_expired, effectiveEndMarker, h]

/-! ## C7 -/

/-- C7 counterexample: the slug `"ep-foo"` makes `PodcastEpisode.number`
raise `ValueError` inside `int(slug_parts[1])`, so the claim's "no
exception raised for any slug string" is false, as is "absent for every
other slug". -/
theorem number_ep_nonnumeric_raises :
    (mkEpisode 1 0 0 "ep-foo").number = Except.error "ValueError" := by rfl

/-- Evaluation of `numberOfSlug` inside the `"ep"` branch. -/
theorem numberOfSlug_ep (slug : String) (h0 : (pySplit '-' slug).headD "" = "ep") :
    PodcastEpisode.numberOfSlug slug =
      match (pySplit '-' slug)[1]? with
      | none => .error "IndexError"
      | some p =>
        match pyInt p with
        | none => .error "ValueError"
        | some n => .ok (some (Sum.inl n)) := by
  simp only [PodcastEpisode.numberOfSlug]
  rw [if_pos h0]

theorem numberOfSlug_not_ep (slug : String)
    (h0 : ¬ (pySplit '-' slug).headD "" = "ep") :
    PodcastEpisode.numberOfSlug slug =
      if (pySplit '-' slug).take 2 = ["morning", "weekend"] then .ok (some (Sum.inr "Weekend"))
      else .ok none := by
  simp only [PodcastEpisode.numberOfSlug]
  rw [if_neg h0]

/-- C7 amended: episode-number parsing yields the numeral of the second
dash-component when the first is `"ep"` (Unicode decimal digits included,
as `int()` accepts them), the label `"Weekend"` whenever the first two
components are `morning-weekend`, and `None` for every other slug — except
that a slug whose first dash-component is `"ep"` but whose second is
missing or not an integer literal raises an exception
(`IndexError` / `ValueError`). -/
theorem number_characterization :
    (∀ slug : String,
      (((∃ msg, PodcastEpisode.numberOfSlug slug = .error msg) ↔
          ((pySplit '-' slug).headD "" = "ep" ∧
            ((pySplit '-' slug)[1]?.bind pyInt) = none)) ∧
        (∀ n : Int, (pySplit '-' slug).headD "" = "ep" →
          (pySplit '-' slug)[1]?.bind pyInt = some n →
          PodcastEpisode.numberOfSlug slug = .ok (some (Sum.inl n)))) ∧
      (¬ (pySplit '-' slug).headD "" = "ep" →
        (pySplit '-' slug).take 2 = ["morning", "weekend"] →
        PodcastEpisode.numberOfSlug slug = .ok (some (Sum.inr "Weekend"))) ∧
      (¬ (pySplit '-' slug).headD "" = "ep" →
        ¬ (pySplit '-' slug).take 2 = ["morning", "weekend"] →
        PodcastEpisode.numberOfSlug slug = .ok none)) ∧
    (mkEpisode 1 0 0 "ep-12-foo").number = .ok (some (Sum.inl 12)) ∧
    (mkEpisode 1 0 0 "ep-٣").number = .ok (some (Sum.inl 3)) ∧
    (mkEpisode 1 0 0 "morning-weekend-xyz").number = .ok (some (Sum.inr "Weekend")) ∧
    (mkEpisode 1 0 0 "something-else").number = .ok none := by
  refine ⟨fun slug => ⟨?_, fun h0 h2 => ?_, fun h0 h2 => ?_⟩, rfl, rfl, rfl, rfl⟩
  · by_cases h0 : (pySplit '-' slug).headD "" = "ep"
    · cases h1 : (pySplit '-' slug)[1]? with
      | none =>
        refine ⟨⟨fun _ => ⟨h0, rfl⟩, fun _ => ⟨"IndexError", ?_⟩⟩, fun n _ hbind => ?_⟩
        · rw [numberOfSlug_ep slug h0, h1]
        · simp at hbind
      | some p =>
        cases h2 : pyInt p with
        | none =>
          refine ⟨⟨fun _ => ⟨h0, ?_⟩, fun _ => ⟨"ValueError", ?_⟩⟩, fun n _ hbind => ?_⟩
          · simp [h2]
          · rw [numberOfSlug_ep slug h0, h1]
            simp [h2]
          · simp [h2] at hbind
        | some n =>
          refine ⟨⟨?_, ?_⟩, fun n' _ hbind => ?_⟩
          · rintro ⟨msg, hmsg⟩
            rw [numberOfSlug_ep slug h0, h1] at hmsg
            simp [h2] at hmsg
          · rintro ⟨_, hbind⟩
            simp [h2] at hbind
          · have hn : n' = n := by simpa [h2] using hbind.symm
            subst hn
            rw [numberOfSlug_ep slug h0, h1]
            simp [h2]
    · refine ⟨⟨?_, fun h => absurd h.1 h0⟩, fun n hep _ => absurd hep h0⟩
      rintro ⟨msg, hmsg⟩
      rw [numberOfSlug_not_ep slug h0] at hmsg
      by_cases h2 : (pySplit '-' slug).take 2 = ["morning", "weekend"]
      · rw [if_pos h2] at hmsg; simp at hmsg
      · rw [if_neg h2] at hmsg; simp at hmsg
  · rw [numberOfSlug_not_ep slug h0, if_pos h2]
  · rw [numberOfSlug_not_ep slug h0, if_neg h2]

/-- C7 witness: the amended characterization applied at the concrete slugs
`"ep-7"`, `"morning-weekend"` and `"plain"`, one per non-raising arm. -/
theorem number_characterization_witness :
    PodcastEpisode.numberOfSlug "ep-7" = .ok (some (Sum.inl 7)) ∧
    PodcastEpisode.numberOfSlug "morning-weekend" = .ok (some (Sum.inr "Weekend")) ∧
    PodcastEpisode.numberOfSlug "plain" = .ok none :=
  ⟨(number_characterization.1 "ep-7").1.2 7 (by rfl) (by rfl),
   (number_characterization.1 "morning-weekend").2.1 (by decide) (by decide),
   (number_characterization.1 "plain").2.2 (by decide) (by decide)⟩

/-! ## C9 -/

set_option maxRecDepth 20000 in
/-- C9 counterexample: at milliseconds `-1500`, `int(total_seconds())`
truncates toward zero (`-1`) while floor division gives `-2` and the
derived duration `"-1:59:59"` is not a zero-padded rendering; and at
milliseconds `25000000000000999` the binary64 rounding inside
`total_seconds()` yields `25000000000001` seconds, not
`floor(m/1000) = 25000000000000`. -/
theorem seconds_negative_not_floor :
    (mkEpisode 1 0 (-1500) "x").seconds ≠ Int.fdiv (-1500) 1000 ∧
    (mkEpisode 1 0 (-1500) "x").duration = "-1:59:59" ∧
    (mkEpisode 1 0 25000000000000999 "x").seconds = 25000000000001 ∧
    (mkEpisode 1 0 25000000000000999 "x").seconds ≠ Int.fdiv 25000000000000999 1000 := by
  exact ⟨by decide, by decide, by decide, by decide⟩

/-- The spec's "zero-padded HH:MM:SS rendering" of a second count. -/
def hmsRendering (s : Nat) : String :=
  zfill 2 (toString (s / 3600)) ++ ":" ++ zfill 2 (toString (s % 3600 / 60)) ++ ":" ++
    zfill 2 (toString (s % 60))

theorem natCast_fdiv (m n : Nat) : Int.fdiv (m : Int) (n : Int) = ((m / n : Nat) : Int) :=
  (Int.ofNat_fdiv m n).symm

theorem natCast_fmod (m n : Nat) : Int.fmod (m : Int) (n : Int) = ((m % n : Nat) : Int) := by
  cases m with
  | zero => simp [Int.fmod]
  | succ k => rfl

theorem pyFmt02_natCast (n : Nat) : pyFmt02 ((n : Nat) : Int) = zfill 2 (toString n) := by
  unfold pyFmt02
  rw [if_neg (by omega)]
  simp

theorem log2Aux_bounds : ∀ (fuel n : Nat), 1 ≤ n → n < 2 ^ fuel →
    2 ^ log2Aux fuel n ≤ n ∧ n < 2 ^ (log2Aux fuel n + 1) := by
  intro fuel
  induction fuel with
  | zero =>
    intro n h1 h2
    rw [pow_zero] at h2
    exact absurd h2 (by omega)
  | succ fuel ih =>
    intro n h1 h2
    by_cases hn : 2 ≤ n
    · have hrec := ih (n / 2) (by omega) (by rw [pow_succ] at h2; omega)
      simp only [log2Aux, if_pos hn]
      constructor
      · rw [pow_succ]
        omega
      · rw [pow_succ]
        omega
    · simp only [log2Aux, if_neg hn]
      constructor
      · simpa using h1
      · have : n < 2 := by omega
        simpa using this

theorem roundHalfEven_div (k r3 P : Nat) (hr3 : r3 < 1000) (hP : 2000 ≤ P) :
    roundHalfEven (k * P + r3 * P / 1000) (1000 * (r3 * P % 1000)) 1000000 / P = k := by
  have hP0 : 0 < P := by omega
  have hdm := Nat.div_add_mod (r3 * P) 1000
  have hRlt : r3 * P % 1000 < 1000 := Nat.mod_lt _ (by omega)
  have hV : r3 * P ≤ 999 * P := Nat.mul_le_mul_right P (by omega)
  set u := r3 * P / 1000 with hu
  set R := r3 * P % 1000 with hR
  have hdiv : ∀ w, w < P → (k * P + w) / P = k := by
    intro w hw
    rw [Nat.mul_comm k P, Nat.mul_add_div hP0]
    simp [Nat.div_eq_of_lt hw]
  unfold roundHalfEven
  by_cases h1 : 1000000 < 2 * (1000 * R)
  · rw [if_pos h1, Nat.add_assoc]
    exact hdiv (u + 1) (by omega)
  · rw [if_neg h1]
    by_cases h2 : 2 * (1000 * R) < 1000000
    · rw [if_pos h2]
      exact hdiv u (by omega)
    · rw [if_neg h2, Nat.add_assoc]
      exact hdiv (u + (k * P + u) % 2) (by omega)

theorem floatDivNE_thousand (m : Nat) (hm : m ≤ 9007199254740) :
    truncDyadic (floatDivNE (m * 1000) 1000000) = m / 1000 := by
  rcases Nat.eq_zero_or_pos m with rfl | hpos
  · decide
  · have h53 : (2 : Nat) ^ 53 = 9007199254740992 := by norm_num
    have haUB : m * 1000 < 2 ^ 53 := by omega
    have ha0 : ¬(m * 1000 = 0 ∨ 1000000 = 0) := by omega
    have hflo : 1 ≤ m * 1000 * twoPow1100 / 1000000 := by
      rw [Nat.le_div_iff_mul_le (by norm_num)]
      have h1 : 1 * 1000000 ≤ 1000 * twoPow1100 := by norm_num [twoPow1100]
      have h2 : 1000 * twoPow1100 ≤ m * 1000 * twoPow1100 := by
        have h3 : 1000 ≤ m * 1000 := by omega
        exact Nat.mul_le_mul_right _ h3
      omega
    have hfhi : m * 1000 * twoPow1100 / 1000000 < 2 ^ 1134 := by
      rw [Nat.div_lt_iff_lt_mul (by norm_num)]
      calc m * 1000 * twoPow1100 < 2 ^ 53 * twoPow1100 := by
            have hpos2 : 0 < twoPow1100 := by norm_num [twoPow1100]
            exact (Nat.mul_lt_mul_right hpos2).mpr haUB
        _ = 2 ^ 1153 := by rw [twoPow1100_eq, ← pow_add]
        _ ≤ 2 ^ 1134 * 1000000 := by
            rw [show (1153 : Nat) = 1134 + 19 from rfl, pow_add]
            exact Nat.mul_le_mul_left _ (by norm_num)
    have hfin : m * 1000 * twoPow1100 / 1000000 < 2 ^ 4096 :=
      lt_of_lt_of_le hfhi (Nat.pow_le_pow_right (by omega) (by omega))
    obtain ⟨hb1, hb2⟩ := log2Aux_bounds 4096 _ hflo hfin
    set L := log2Nat (m * 1000 * twoPow1100 / 1000000) with hLdef
    have hb1L : 2 ^ L ≤ m * 1000 * twoPow1100 / 1000000 := hb1
    have hL : L ≤ 1133 := by
      by_contra hcon
      have h1 : (2 : Nat) ^ 1134 ≤ 2 ^ L := Nat.pow_le_pow_right (by omega) (by omega)
      omega
    have hP2000 : 2000 ≤ 2 ^ (1152 - L) := by
      calc (2000 : Nat) ≤ 2 ^ 19 := by norm_num
        _ ≤ 2 ^ (1152 - L) := Nat.pow_le_pow_right (by omega) (by omega)
    have hfd : floatDivNE (m * 1000) 1000000 =
        (roundHalfEven (m * 1000 * 2 ^ (1152 - L) / 1000000)
          (m * 1000 * 2 ^ (1152 - L) % 1000000) 1000000, (L : Int) - 1152) := by
      simp only [floatDivNE]
      rw [if_neg ha0, ← hLdef, if_pos (show L ≤ 1152 by omega)]
    rw [hfd]
    simp only [truncDyadic]
    rw [if_neg (show ¬(0 ≤ (L : Int) - 1152) by omega)]
    rw [show (-((L : Int) - 1152)).toNat = 1152 - L by omega]
    have hm1000 := Nat.div_add_mod m 1000
    have hdecomp : m * 2 ^ (1152 - L) =
        1000 * (m / 1000 * 2 ^ (1152 - L)) + m % 1000 * 2 ^ (1152 - L) := by
      conv_lhs => rw [← hm1000]
      ring
    have hq : m * 1000 * 2 ^ (1152 - L) / 1000000
        = m / 1000 * 2 ^ (1152 - L) + m % 1000 * 2 ^ (1152 - L) / 1000 := by
      rw [show m * 1000 * 2 ^ (1152 - L) = 1000 * (m * 2 ^ (1152 - L)) by ring,
        show (1000000 : Nat) = 1000 * 1000 by norm_num,
        Nat.mul_div_mul_left _ _ (by norm_num), hdecomp, Nat.mul_add_div (by norm_num)]
    have hr : m * 1000 * 2 ^ (1152 - L) % 1000000
        = 1000 * (m % 1000 * 2 ^ (1152 - L) % 1000) := by
      rw [show m * 1000 * 2 ^ (1152 - L) = 1000 * (m * 2 ^ (1152 - L)) by ring,
        show (1000000 : Nat) = 1000 * 1000 by norm_num,
        Nat.mul_mod_mul_left, hdecomp, Nat.mul_add_mod]
    rw [hq, hr]
    exact roundHalfEven_div (m / 1000) (m % 1000) (2 ^ (1152 - L))
      (Nat.mod_lt _ (by norm_num)) hP2000

/-- C9 amended: for every episode whose duration milliseconds are
nonnegative and at most 9007199254740 (so that the exact microsecond count
stays within `2^53` and the binary64 rounding of `total_seconds()` cannot
cross an integer boundary), the derived seconds equal `floor(ms/1000)` and
the derived duration string is the zero-padded HH:MM:SS rendering of that
second count; negative milliseconds truncate toward zero instead, and
beyond that range the float rounding can exceed the floor. -/
theorem seconds_duration_nonneg (e : PodcastEpisode) (h : 0 ≤ e.milliseconds)
    (hub : e.milliseconds ≤ 9007199254740) :
    e.seconds = Int.fdiv e.milliseconds 1000 ∧
    e.duration = hmsRendering e.seconds.toNat := by
  obtain ⟨mN, hmN⟩ : ∃ mN : Nat, e.milliseconds = (mN : Int) :=
    ⟨e.milliseconds.toNat, (Int.toNat_of_nonneg h).symm⟩
  have hmUB : mN ≤ 9007199254740 := by
    rw [hmN] at hub
    exact_mod_cast hub
  have hkey := floatDivNE_thousand mN hmUB
  have hsec : e.seconds = ((mN / 1000 : Nat) : Int) := by
    simp only [PodcastEpisode.seconds, pyTimedeltaSecondsInt]
    rw [hmN, if_neg (show ¬((mN : Int) < 0) by omega)]
    simp only [Int.natAbs_ofNat]
    rw [hkey]
  refine ⟨?_, ?_⟩
  · rw [hsec, hmN, show (1000 : Int) = ((1000 : Nat) : Int) from rfl, natCast_fdiv]
  · simp only [PodcastEpisode.duration, hmsRendering]
    rw [hsec]
    rw [show (3600 : Int) = ((3600 : Nat) : Int) from rfl,
      show (60 : Int) = ((60 : Nat) : Int) from rfl]
    rw [natCast_fdiv, natCast_fmod, natCast_fdiv, natCast_fmod,
      pyFmt02_natCast, pyFmt02_natCast, pyFmt02_natCast]
    simp only [Int.toNat_natCast]

set_option maxRecDepth 20000 in
/-- C9 witness: the amended statement applied at a concrete episode of
3725000 ms (1 h 2 min 5 s). -/
theorem seconds_duration_nonneg_witness :
    (mkEpisode 1 0 3725000 "x").seconds = 3725 ∧
    (mkEpisode 1 0 3725000 "x").duration = "01:02:05" := by
  have h := seconds_duration_nonneg (mkEpisode 1 0 3725000 "x") (by decide) (by decide)
  exact ⟨h.1.trans (by decide), h.2.trans (by decide)⟩

/-! ## C8 -/

theorem filter_item_map (l : List PodcastEpisode) :
    (l.map PodcastEpisode.to_rss_item).filter (fun c => c.tag == "item") =
      l.map PodcastEpisode.to_rss_item := by
  induction l with
  | nil => rfl
  | cons x xs ih => simp [PodcastEpisode.to_rss_item, Xml.tag, ih]

theorem rssItems_to_rss (f : PodcastFeed) :
    rssItems f.to_rss = f.sorted_episodes.map PodcastEpisode.to_rss_item := by
  simp only [rssItems, PodcastFeed.to_rss, Xml.children, List.headD]
  rw [List.filter_append, filter_item_map]
  rfl

theorem sorted_episodes_sorted (f : PodcastFeed) :
    List.Sorted dateDesc f.sorted_episodes := by
  haveI : IsTotal PodcastEpisode dateDesc := ⟨fun a b => Int.le_total b.date a.date⟩
  haveI : IsTrans PodcastEpisode dateDesc := ⟨fun a b c h1 h2 => Int.le_trans h2 h1⟩
  exact List.sorted_insertionSort dateDesc f.episodes

/-- C8 amended: the rendered document holds one `item` per episode — the
items of the channel are exactly the image of `sorted_episodes`, itself a
permutation of the stored episode list — in non-increasing (descending, but
not strictly when publish dates tie) publish-date order, while the stored
episode list is only ever appended to by `add_episode` and is not re-sorted
in place (sorting is the read-time view `sorted_episodes`). -/
theorem to_rss_items_sorted_desc (f : PodcastFeed) (e : PodcastEpisode) :
    (f.add_episode e).episodes = f.episodes ++ [e] ∧
    rssItems f.to_rss = f.sorted_episodes.map PodcastEpisode.to_rss_item ∧
    List.Sorted (fun a b : PodcastEpisode => b.date ≤ a.date) f.sorted_episodes ∧
    f.sorted_episodes.Perm f.episodes :=
  ⟨rfl, rssItems_to_rss f, sorted_episodes_sorted f,
    List.perm_insertionSort dateDesc f.episodes⟩

/-- A feed whose two episodes share one publish date. -/
def dupDateFeed : PodcastFeed :=
  { toPodcast := samplePodcast,
    episodes := [mkEpisode 1 500 0 "a", mkEpisode 2 500 0 "b"] }

/-- C8 counterexample: with two episodes of equal publish date the rendered
channel still holds one item per episode, but the item order is not
strictly descending by publish date (the dates tie), refuting the claim's
"strictly descending" for every multiset of episodes. -/
theorem to_rss_equal_dates_not_strictly_descending :
    rssItems dupDateFeed.to_rss =
      [(mkEpisode 1 500 0 "a").to_rss_item, (mkEpisode 2 500 0 "b").to_rss_item] ∧
    (mkEpisode 1 500 0 "a").date = (mkEpisode 2 500 0 "b").date ∧
    ¬ List.Sorted (fun a b : PodcastEpisode => b.date < a.date)
        dupDateFeed.sorted_episodes := by
  refine ⟨?_, rfl, by decide⟩
  rw [rssItems_to_rss]
  rfl

/-! ## Pagination lemmas -/

theorem emitLoop_none (xs : List α) (c : Nat) :
    emitLoop none xs c = (xs, c + xs.length, false) := by
  induction xs generalizing c with
  | nil => simp [emitLoop]
  | cons x xs ih =>
    simp only [emitLoop, ih, List.length_cons]
    refine congrArg (fun m => (x :: xs, m, false)) ?_
    omega

theorem emitLoop_some (L : Nat) (xs : List α) (c : Nat) (h : c < L) :
    emitLoop (some L) xs c =
      (xs.take (L - c), min (c + xs.length) L, decide (L ≤ c + xs.length)) := by
  induction xs generalizing c with
  | nil =>
    have h1 : min (c + 0) L = c := by omega
    have h2 : decide (L ≤ c + 0) = false := by simp; omega
    simp [emitLoop, h1, h2]
    omega
  | cons x xs ih =>
    simp only [emitLoop, List.length_cons]
    by_cases hL : L ≤ c + 1
    · rw [if_pos hL]
      have h1 : L - c = 1 := by omega
      have h2 : min (c + (xs.length + 1)) L = c + 1 := by omega
      have h3 : decide (L ≤ c + (xs.length + 1)) = true := by simp; omega
      simp [h1, h2, h3]
    · rw [if_neg hL]
      rw [ih (c + 1) (by omega)]
      have h1 : L - c = (L - (c + 1)) + 1 := by omega
      have h2 : c + 1 + xs.length = c + (xs.length + 1) := by omega
      rw [h1, List.take_succ_cons, h2]

/-! ## C1 -/

/-- C1 counterexample: with limit 0 and a one-item catalog the fetch yields
one record, not `min(0, 1) = 0` — the limit check `counter >= hits` only
runs after the first yield of a page, and `hits or 200` makes a zero limit
fall back to page size 200. -/
theorem recursive_podcast_get_zero_limit :
    (recursive_podcast_get sampleEnv (srvOf [(0 : Nat)]) {} 1 0 (some 0) 1).1.items.length
      ≠ min 0 [(0 : Nat)].length := by
  decide

/-- C1 amended: for every limit `L ≥ 1` and catalog, the fetch yields
exactly `min(L, N)` records — the `take L` prefix of the catalog, hence in
server order — in a single page request. -/
theorem recursive_podcast_get_limited {α : Type} (catalog : List α) (L : Nat)
    (env : ApiEnv) (s : ApiState) (fuel : Nat) (hL : 1 ≤ L) (hf : 1 ≤ fuel) :
    (recursive_podcast_get env (srvOf catalog) s 1 0 (some L) fuel).1.items
        = catalog.take (min L catalog.length) ∧
    (recursive_podcast_get env (srvOf catalog) s 1 0 (some L) fuel).1.items.length
        = min L catalog.length ∧
    (recursive_podcast_get env (srvOf catalog) s 1 0 (some L) fuel).1.pages = 1 ∧
    (recursive_podcast_get env (srvOf catalog) s 1 0 (some L) fuel).1.completed = true := by
  obtain ⟨fuel, rfl⟩ : ∃ k, fuel = k + 1 := ⟨fuel - 1, by omega⟩
  have hL0 : ¬ (L = 0) := by omega
  have hsrv : srvOf catalog L 1 = (catalog.length, catalog.take L) := by
    simp [srvOf]
  have step : recursive_podcast_get env (srvOf catalog) s 1 0 (some L) (fuel + 1) =
      (⟨catalog.take L, 1, true⟩, (auth_token env s).1) := by
    simp only [recursive_podcast_get, if_neg hL0, hsrv,
      emitLoop_some L (catalog.take L) 0 (by omega), List.length_take, Nat.zero_add,
      Nat.sub_zero, List.take_take, Nat.min_self]
    by_cases hLN : L ≤ catalog.length
    · have hb : decide (L ≤ min L catalog.length) = true := by simp; omega
      rw [hb]
      simp
    · have hb : decide (L ≤ min L catalog.length) = false := by simp; omega
      rw [hb]
      have hm : min (min L catalog.length) L = catalog.length := by omega
      rw [hm]
      have hc : decide (catalog.length < catalog.length) = false := by simp
      rw [hc]
      simp
  rw [step]
  refine ⟨?_, ?_, rfl, rfl⟩
  · by_cases hLN : L ≤ catalog.length
    · rw [Nat.min_eq_left hLN]
    · rw [List.take_of_length_le (by omega), Nat.min_eq_right (by omega), List.take_length]
  · simp [List.length_take]

/-- C1 witness: the amended limited-fetch theorem applied to a catalog of 5
records with limit 3. -/
theorem recursive_podcast_get_limited_witness :
    (recursive_podcast_get sampleEnv (srvOf (List.range 5)) {} 1 0 (some 3) 1).1.items
        = [0, 1, 2] ∧
    (recursive_podcast_get sampleEnv (srvOf (List.range 5)) {} 1 0 (some 3) 1).1.pages = 1 := by
  have h := recursive_podcast_get_limited (List.range 5) 3 sampleEnv {} 1 (by decide) (by decide)
  exact ⟨h.1.trans (by decide), h.2.2.1⟩

/-! ## C3 -/

theorem recursive_podcast_get_unlimited_aux {α : Type} (catalog : List α) (env : ApiEnv) :
    ∀ fuel (s : ApiState) (p c : Nat), 1 ≤ p → c = (p - 1) * 200 → c ≤ catalog.length →
      max 1 ((catalog.length - c + 199) / 200) ≤ fuel →
      (recursive_podcast_get env (srvOf catalog) s p c none fuel).1 =
        ⟨catalog.drop c, max 1 ((catalog.length - c + 199) / 200), true⟩ := by
  intro fuel
  induction fuel with
  | zero =>
    intro s p c hp hc hcN hf
    have := le_trans (le_max_left 1 ((catalog.length - c + 199) / 200)) hf
    omega
  | succ fuel ih =>
    intro s p c hp hc hcN hf
    have hsrv : srvOf catalog 200 p = (catalog.length, (catalog.drop c).take 200) := by
      simp [srvOf, hc]
    have hlen : ((catalog.drop c).take 200).length = min 200 (catalog.length - c) := by
      simp [List.length_take, List.length_drop]
    simp only [recursive_podcast_get, hsrv, emitLoop_none]
    by_cases hrem : catalog.length - c ≤ 200
    · have hcond : ¬ (c + ((catalog.drop c).take 200).length < catalog.length) := by
        rw [hlen]; omega
      have htk : (catalog.drop c).take 200 = catalog.drop c :=
        List.take_of_length_le (by simp [List.length_drop]; omega)
      have hpg : max 1 ((catalog.length - c + 199) / 200) = 1 := by omega
      simp [hcond, htk, hpg,
        (by omega : min 200 (catalog.length - c) = catalog.length - c)]
      rw [if_neg (by omega : ¬ (c + (catalog.length - c) < catalog.length))]
    · have hcond : c + ((catalog.drop c).take 200).length < catalog.length := by
        rw [hlen]; omega
      have hlen200 : ((catalog.drop c).take 200).length = 200 := by rw [hlen]; omega
      have ihh := ih (auth_token env s).1 (p + 1) (c + 200) (by omega) (by omega)
        (by omega) (by omega)
      have hdd : catalog.drop (c + 200) = (catalog.drop c).drop 200 := by
        rw [List.drop_drop, Nat.add_comm]
      have hitems : (catalog.drop c).take 200 ++ catalog.drop (c + 200) = catalog.drop c := by
        rw [hdd, List.take_append_drop]
      have hpg : max 1 ((catalog.length - (c + 200) + 199) / 200) + 1
          = max 1 ((catalog.length - c + 199) / 200) := by omega
      simp [hcond, hlen200, ihh, hitems, hpg,
        (by omega : min 200 (catalog.length - c) = 200)]
      rw [if_pos (by omega : c + 200 < catalog.length)]

/-- C3 amended: the unlimited fetch over a catalog of `N` items yields
exactly the catalog — every record once, in order, the emitted count
carried across pages — using `max(1, ceil(N/200))` page requests: the
claimed `ceil(N/200)` for `N ≥ 1`, but one request (not zero) for the
empty catalog, since page 1 is always requested. -/
theorem recursive_podcast_get_unlimited {α : Type} (catalog : List α) (env : ApiEnv)
    (s : ApiState) (fuel : Nat)
    (hf : max 1 ((catalog.length + 199) / 200) ≤ fuel) :
    (recursive_podcast_get env (srvOf catalog) s 1 0 none fuel).1.items = catalog ∧
    (recursive_podcast_get env (srvOf catalog) s 1 0 none fuel).1.pages
        = max 1 ((catalog.length + 199) / 200) ∧
    (recursive_podcast_get env (srvOf catalog) s 1 0 none fuel).1.completed = true := by
  have h := recursive_podcast_get_unlimited_aux catalog env fuel s 1 0 (by omega) (by omega)
    (by omega) (by simpa using hf)
  rw [h]
  refine ⟨by simp, by simp, rfl⟩

/-- C3 counterexample: on the empty catalog the fetch still issues one page
request, while `ceil(0/200) = 0`. -/
theorem recursive_podcast_get_empty_catalog_pages :
    (recursive_podcast_get sampleEnv (srvOf ([] : List Nat)) {} 1 0 none 1).1.pages ≠
      (([] : List Nat).length + 199) / 200 := by
  decide

/-- C3 witness: the amended unlimited-fetch theorem at the spec's example
`N = 450`, giving 3 page requests of sizes 200, 200, 50. -/
theorem recursive_podcast_get_unlimited_witness :
    (recursive_podcast_get sampleEnv (srvOf (List.range 450)) {} 1 0 none 3).1.items
        = List.range 450 ∧
    (recursive_podcast_get sampleEnv (srvOf (List.range 450)) {} 1 0 none 3).1.pages = 3 := by
  have h := recursive_podcast_get_unlimited (List.range 450) sampleEnv {} 3
    (by norm_num [List.length_range])
  exact ⟨h.1, h.2.1.trans (by norm_num [List.length_range])⟩

/-! ## C2 -/

/-- A page server reporting a constant total of 5 whose first page holds
three records and whose every later page answers an empty data array. -/
def srvStale : Nat → Nat → Nat × List Nat :=
  fun _ p => if p = 1 then (5, [10, 11, 12]) else (5, [])

theorem srvStale_tail (env : ApiEnv) :
    ∀ fuel (s : ApiState) (p : Nat), 2 ≤ p →
      (recursive_podcast_get env srvStale s p 3 none fuel).1 = ⟨[], fuel, false⟩ := by
  intro fuel
  induction fuel with
  | zero => intro s p hp; rfl
  | succ fuel ih =>
    intro s p hp
    have hsrv : srvStale 200 p = (5, []) := by
      simp [srvStale]; omega
    have ihh := ih (auth_token env s).1 (p + 1) (by omega)
    simp [recursive_podcast_get, hsrv, emitLoop, ihh]

/-- C2: the code does not treat an empty data array with emitted < total as
the end of data — it keeps requesting further pages. Against a server whose
later pages are empty while the reported total stays 5, every unit of fuel
issues one more page request and the traversal never completes. -/
theorem recursive_podcast_get_empty_page_diverges (env : ApiEnv) (s : ApiState) (fuel : Nat) :
    (recursive_podcast_get env srvStale s 1 0 none fuel).1.completed = false ∧
    (recursive_podcast_get env srvStale s 1 0 none fuel).1.pages = fuel := by
  cases fuel with
  | zero => exact ⟨rfl, rfl⟩
  | succ fuel =>
    have hsrv : srvStale 200 1 = (5, [10, 11, 12]) := rfl
    have htail := srvStale_tail env fuel (auth_token env s).1 2 (by omega)
    simp [recursive_podcast_get, hsrv, emitLoop, htail]

/-! ## C4 -/

theorem auth_token_complete (env : ApiEnv) (s : ApiState)
    (hu : s.user.isSome) (hc : s._subscription_cache.isSome) :
    (auth_token env s).1 = { s with authTokenEvals := s.authTokenEvals + 1 } := by
  obtain ⟨u, hu1⟩ := Option.isSome_iff_exists.mp hu
  obtain ⟨m, hc1⟩ := Option.isSome_iff_exists.mp hc
  simp [auth_token, hu1, hc1]

theorem rpg_state_complete {α : Type} (env : ApiEnv) (srv : Nat → Nat → Nat × List α) :
    ∀ fuel (s : ApiState) (page counter : Nat) (hits : Option Nat),
      s.user.isSome → s._subscription_cache.isSome →
      (recursive_podcast_get env srv s page counter hits fuel).2 =
        { s with authTokenEvals :=
            s.authTokenEvals + (recursive_podcast_get env srv s page counter hits fuel).1.pages } := by
  intro fuel
  induction fuel with
  | zero =>
    intro s page counter hits hu hc
    show s = { s with authTokenEvals := s.authTokenEvals + 0 }
    simp
  | succ fuel ih =>
    intro s page counter hits hu hc
    have hstep := auth_token_complete env s hu hc
    simp only [recursive_podcast_get, hstep]
    split
    · rfl
    · split
      · rw [ih { s with authTokenEvals := s.authTokenEvals + 1 } (page + 1) _ hits hu hc]
        congr 1
        dsimp only
        omega
      · rfl

/-- Evaluation of `login` when the configured cache file holds a
non-expired subscription: the record is only loaded into memory. -/
theorem login_valid_cache (env : ApiEnv) (s : ApiState) (m : IlPostUserMetadata)
    (sub : IlPostUserSubscription) (h1 : s.configFile = some m)
    (h2 : m.subscription = some sub) (h3 : sub.is_expired env.now = false) :
    login env s = { s with _subscription_cache := some m } := by
  simp only [login, h1, h2, h3]
  simp

/-- C4 amended: once a complete credential record is in memory (as after a
network login), repeated `auth_token` evaluations and whole pagination
walks perform no further network login — but the token is re-derived (the
`auth_token` property is evaluated) once per page of a recursive traversal,
pages 2..k included, not only at top-level entry; a record loaded from the
non-expired disk cache likewise yields no network login call. -/
theorem auth_token_reuse (env : ApiEnv) (s : ApiState) :
    (s.user.isSome → s._subscription_cache.isSome →
      (auth_token env s).1.loginNetworkCalls = s.loginNetworkCalls ∧
      (auth_token env ((auth_token env s).1)).1.loginNetworkCalls = s.loginNetworkCalls) ∧
    (∀ m sub, s.configFile = some m → m.subscription = some sub →
      sub.is_expired env.now = false →
      (auth_token env s).1.loginNetworkCalls = s.loginNetworkCalls) ∧
    (∀ (srv : Nat → Nat → Nat × List Nat) (page counter : Nat) (hits : Option Nat) (fuel : Nat),
      s.user.isSome → s._subscription_cache.isSome →
      (recursive_podcast_get env srv s page counter hits fuel).2.authTokenEvals
          = s.authTokenEvals + (recursive_podcast_get env srv s page counter hits fuel).1.pages ∧
      (recursive_podcast_get env srv s page counter hits fuel).2.loginNetworkCalls
          = s.loginNetworkCalls) := by
  refine ⟨fun hu hc => ?_, fun m sub h1 h2 h3 => ?_, fun srv page counter hits fuel hu hc => ?_⟩
  · rw [auth_token_complete env s hu hc,
      auth_token_complete env { s with authTokenEvals := s.authTokenEvals + 1 } hu hc]
    exact ⟨rfl, rfl⟩
  · simp only [auth_token]
    split
    · rw [login_valid_cache env { s with authTokenEvals := s.authTokenEvals + 1 } m sub h1 h2 h3]
    · rfl
  · rw [rpg_state_complete env srv fuel s page counter hits hu hc]
    exact ⟨rfl, rfl⟩

/-- The in-memory state right after a successful network login. -/
def loggedInState : ApiState := networkLogin sampleEnv {}

/-- A consistent two-page server: total 2, one record on page 1, one on
page 2. -/
def srvTwoPages : Nat → Nat → Nat × List Nat :=
  fun _ p => if p = 1 then (2, [0]) else (2, [1])

/-- C4 counterexample: a single two-page traversal starting from a freshly
logged-in state evaluates the `auth_token` property twice — once per page,
including page 2 of the in-flight recursive walk — not once at top-level
entry as claimed. -/
theorem auth_token_per_page_counterexample :
    loggedInState.authTokenEvals = 0 ∧
    (recursive_podcast_get sampleEnv srvTwoPages loggedInState 1 0 none 5).1.pages = 2 ∧
    (recursive_podcast_get sampleEnv srvTwoPages loggedInState 1 0 none 5).2.authTokenEvals = 2 ∧
    (recursive_podcast_get sampleEnv srvTwoPages loggedInState 1 0 none 5).2.authTokenEvals ≠ 1 := by
  refine ⟨rfl, ?_, ?_, ?_⟩ <;> decide

/-- C4 witness: the amended theorem applied at the logged-in state: one
more `auth_token` evaluation and one full two-page walk, both with zero
further network logins. -/
theorem auth_token_reuse_witness :
    (auth_token sampleEnv loggedInState).1.loginNetworkCalls = loggedInState.loginNetworkCalls ∧
    (recursive_podcast_get sampleEnv srvTwoPages loggedInState 1 0 none 5).2.loginNetworkCalls
        = loggedInState.loginNetworkCalls := by
  have h := auth_token_reuse sampleEnv loggedInState
  exact ⟨(h.1 (by decide) (by decide)).1,
    (h.2.2 srvTwoPages 1 0 none 5 (by decide) (by decide)).2⟩

/-! ## C5 -/

/-- A subscription whose effective end marker (end-date 5) is before the
sample environment's current time 10. -/
def expiredSubscription : IlPostUserSubscription :=
  { id := 2, billing_period := "year", subscription_status := "expired",
    next_payment := 3, start_date := 0, end_date := some 5 }

/-- The stale persisted credential record. -/
def staleMeta : IlPostUserMetadata :=
  { token := "stale", subscription := some expiredSubscription }

/-- Expired record at the configured path, and a same-named file in the CWD. -/
def sStaleWithCwd : ApiState := { configFile := some staleMeta, cwdFile := true }

/-- Expired record at the configured path, no same-named file in the CWD. -/
def sStaleNoCwd : ApiState := { configFile := some staleMeta }

/-- Non-expired record at the configured path. -/
def sFreshCache : ApiState := { configFile := some sampleMeta }

/-- C5: on an expired persisted record, exactly one network login happens,
but the deletion targets the bare cache-file name in the CWD
(`os.remove(settings.ILPOST_SUBSCRIPTION_CACHE_FILE_NAME)`), never the
configured cache path — whose stale file is only overwritten by the fresh
record after the login (and with no CWD file nothing is deleted at all);
a non-expired persisted record performs zero network logins. -/
theorem login_expired_removes_cwd_only :
    (login sampleEnv sStaleWithCwd).removed = [CachePath.cwdName] ∧
    (login sampleEnv sStaleWithCwd).loginNetworkCalls = 1 ∧
    (login sampleEnv sStaleNoCwd).removed = [] ∧
    (login sampleEnv sStaleNoCwd).loginNetworkCalls = 1 ∧
    (login sampleEnv sStaleWithCwd).configFile = some sampleEnv.loginUser.profile.meta ∧
    (login sampleEnv sFreshCache).loginNetworkCalls = 0 := by
  refine ⟨?_, ?_, ?_, ?_, ?_, ?_⟩ <;> decide

/-! ## C10 -/

theorem login_podcasts (env : ApiEnv) (s : ApiState) :
    (login env s)._podcasts = s._podcasts := by
  simp only [login, networkLogin]
  split
  · rfl
  · split
    · rfl
    · split
      · split <;> rfl
      · rfl

theorem auth_token_podcasts (env : ApiEnv) (s : ApiState) :
    (auth_token env s).1._podcasts = s._podcasts := by
  simp only [auth_token]
  split
  · rw [login_podcasts]
  · rfl

theorem rpg_podcasts {α : Type} (env : ApiEnv) (srv : Nat → Nat → Nat × List α) :
    ∀ fuel (s : ApiState) (page counter : Nat) (hits : Option Nat),
      (recursive_podcast_get env srv s page counter hits fuel).2._podcasts = s._podcasts := by
  intro fuel
  induction fuel with
  | zero => intro s page counter hits; rfl
  | succ fuel ih =>
    intro s page counter hits
    simp only [recursive_podcast_get]
    split
    · exact auth_token_podcasts env s
    · split
      · rw [ih]; exact auth_token_podcasts env s
      · exact auth_token_podcasts env s

/-- C10: a limited listing (`get_podcasts`, any `top_n`) never modifies the
in-memory show cache; the cache is populated only through the `podcasts`
property on first access — a full unlimited fetch indexed by slug — and a
non-empty cache is answered unchanged. -/
theorem get_podcasts_cache_frame :
    (∀ (env : ApiEnv) (srv : Nat → Nat → Nat × List Podcast) (s : ApiState)
        (top_n : Option Nat) (fuel : Nat),
      (get_podcasts env srv s top_n fuel).2._podcasts = s._podcasts) ∧
    (∀ (env : ApiEnv) (srv : Nat → Nat → Nat × List Podcast) (s : ApiState) (fuel : Nat),
      s._podcasts.isEmpty = false →
      podcasts env srv s fuel = (s._podcasts, s)) ∧
    (∀ (env : ApiEnv) (srv : Nat → Nat → Nat × List Podcast) (s : ApiState) (fuel : Nat),
      s._podcasts.isEmpty = true →
      (podcasts env srv s fuel).2._podcasts =
        (get_podcasts env srv s none fuel).1.foldl (fun m p => dictSet m p.slug p) [] ∧
      (podcasts env srv s fuel).1 = (podcasts env srv s fuel).2._podcasts) := by
  refine ⟨fun env srv s top_n fuel => ?_, fun env srv s fuel hne => ?_,
    fun env srv s fuel hemp => ?_⟩
  · exact rpg_podcasts env srv fuel s 1 0 top_n
  · simp only [podcasts, hne]
    rfl
  · have hpods : (get_podcasts env srv s none fuel).2._podcasts = s._podcasts :=
      rpg_podcasts env srv fuel s 1 0 none
    have hnil : s._podcasts = [] := List.isEmpty_iff.mp hemp
    constructor
    · simp only [podcasts, hemp]
      simp [hpods, hnil]
    · simp only [podcasts, hemp]
      simp

/-- A state whose show cache is already populated. -/
def sCached : ApiState := { _podcasts := [("show", samplePodcast)] }

/-- C10 witness: the frame theorem applied at concrete states — a limited
listing from the empty state leaves the cache empty, a populated cache is
answered unchanged, and first access populates from the unlimited fetch. -/
theorem get_podcasts_cache_frame_witness :
    (get_podcasts sampleEnv (srvOf [samplePodcast]) {} (some 1) 2).2._podcasts
        = ({} : ApiState)._podcasts ∧
    podcasts sampleEnv (srvOf [samplePodcast]) sCached 2 = (sCached._podcasts, sCached) ∧
    (podcasts sampleEnv (srvOf [samplePodcast]) {} 2).2._podcasts =
      (get_podcasts sampleEnv (srvOf [samplePodcast]) {} none 2).1.foldl
        (fun m p => dictSet m p.slug p) [] :=
  ⟨get_podcasts_cache_frame.1 sampleEnv (srvOf [samplePodcast]) {} (some 1) 2,
    get_podcasts_cache_frame.2.1 sampleEnv (srvOf [samplePodcast]) sCached 2 (by decide),
    (get_podcasts_cache_frame.2.2 sampleEnv (srvOf [samplePodcast]) {} 2 (by decide)).1⟩
